import Mathlib

/-!
Shallow embedding of the WASMRenderBench wireframe renderer.

The application code (`src/main.c`) is embedded directly: the
`SoftwareRenderer` state, the `update`/`draw` frame functions, the input
handlers and the idle-orbit camera placement.  The vector, camera and scene
modules (`vec3.c`, `camera.c`, `scene.c`) are not part of the sources
available here; their operations are modelled from the specification, each
so marked in its doc comment.  Machine doubles are modelled as real numbers,
except that a projected screen coordinate is a `FloatV`, a real number or
the IEEE NaN used by the code as its invalid-projection marker; `ieeeNe`
gives the IEEE-754 semantics of the C `!=` operator on such values.
-/

noncomputable section

/-- A 3-component vector of doubles, modelled over the reals. -/
structure Vec3 where
  x : ℝ
  y : ℝ
  z : ℝ

/-- Modelled from the spec: `Vec3_new` of the missing `vec3.c`. -/
def Vec3_new (x y z : ℝ) : Vec3 := ⟨x, y, z⟩

/-- Modelled from the spec: componentwise addition of the missing `vec3.c`. -/
def Vec3_add (a b : Vec3) : Vec3 := ⟨a.x + b.x, a.y + b.y, a.z + b.z⟩

/-- Modelled from the spec: componentwise subtraction of the missing `vec3.c`. -/
def Vec3_sub (a b : Vec3) : Vec3 := ⟨a.x - b.x, a.y - b.y, a.z - b.z⟩

/-- Modelled from the spec: scaling by a scalar of the missing `vec3.c`. -/
def Vec3_mult (a : Vec3) (s : ℝ) : Vec3 := ⟨a.x * s, a.y * s, a.z * s⟩

/-- Modelled from the spec: squared Euclidean length of the missing `vec3.c`. -/
def Vec3_sqLength (a : Vec3) : ℝ := a.x * a.x + a.y * a.y + a.z * a.z

/-- Modelled from the spec: Euclidean length of the missing `vec3.c`. -/
def Vec3_length (a : Vec3) : ℝ := Real.sqrt (Vec3_sqLength a)

/-- Modelled from the spec: `setLength` rescales a vector to the given
magnitude and, per the documented fallback, leaves a zero-length vector
unchanged rather than dividing by zero. -/
def Vec3_setLength (a : Vec3) (t : ℝ) : Vec3 :=
  if Vec3_length a = 0 then a else Vec3_mult a (t / Vec3_length a)

/-- Modelled from the spec: cylindrical-coordinate construction
`(radius*cos(angle), height, radius*sin(angle))` of the missing `vec3.c`. -/
def Vec3_cylindrical (r angle h : ℝ) : Vec3 :=
  ⟨r * Real.cos angle, h, r * Real.sin angle⟩

/-- Modelled from the spec: dot product of the missing `vec3.c`. -/
def Vec3_dot (a b : Vec3) : ℝ := a.x * b.x + a.y * b.y + a.z * b.z

/-- Modelled from the spec: cross product of the missing `vec3.c`. -/
def Vec3_cross (a b : Vec3) : Vec3 :=
  ⟨a.y * b.z - a.z * b.y, a.z * b.x - a.x * b.z, a.x * b.y - a.y * b.x⟩

/-- Modelled from the spec: normalization, a rescale to length one. -/
def Vec3_normalize (a : Vec3) : Vec3 := Vec3_setLength a 1

/-- A screen coordinate: a finite double, or the IEEE NaN the code stores as
its invalid-projection marker. -/
inductive FloatV where
  | val (r : ℝ)
  | nan

/-- IEEE-754 semantics of the C `!=` comparison: true whenever either operand
is NaN (every comparison with NaN is unordered, and `!=` holds on unordered
operands), otherwise numeric disequality. -/
def ieeeNe (a b : FloatV) : Prop :=
  match a, b with
  | .nan, _ => True
  | _, .nan => True
  | .val p, .val q => p ≠ q

/-- A projected screen point, two screen coordinates. -/
structure Pt2 where
  x : FloatV
  y : FloatV

/-- The invalid-projection marker: both coordinates NaN. -/
def Pt2_invalid : Pt2 := ⟨.nan, .nan⟩

/-- The camera: position, up vector, stored look direction, viewport
dimensions and the two field-of-view angles, as in the spec's data model. -/
structure Camera where
  pos : Vec3
  up : Vec3
  forward : Vec3
  viewportWidth : ℤ
  viewportHeight : ℤ
  fovHorizontal : ℝ
  fovVertical : ℝ

/-- Modelled from the spec: `Camera_new` of the missing `camera.c`, taking
position, up vector, viewport dimensions and the two field-of-view angles as
the call in `init` passes them; the spec's default look direction is a fixed
axis, modelled as `(0, 0, 1)`. -/
def Camera_new (pos up : Vec3) (w h : ℤ) (fovH fovV : ℝ) : Camera :=
  ⟨pos, up, ⟨0, 0, 1⟩, w, h, fovH, fovV⟩

/-- Modelled from the spec: the forward vector with its `up` component
projected out, normalized. -/
def Camera_directionForwardHorizontal (c : Camera) : Vec3 :=
  Vec3_normalize (Vec3_sub c.forward (Vec3_mult c.up (Vec3_dot c.forward c.up)))

/-- Modelled from the spec: the cross product of forward and `up`, normalized. -/
def Camera_directionRight (c : Camera) : Vec3 :=
  Vec3_normalize (Vec3_cross c.forward c.up)

/-- Modelled from the spec: sets forward to a normalized copy of the given
direction. -/
def Camera_setLookDirection (c : Camera) (d : Vec3) : Camera :=
  { c with forward := Vec3_normalize d }

/-- Rodrigues rotation of `v` about the unit axis `k` by `angle`. -/
def rotateAround (v k : Vec3) (angle : ℝ) : Vec3 :=
  Vec3_add
    (Vec3_add (Vec3_mult v (Real.cos angle))
      (Vec3_mult (Vec3_cross k v) (Real.sin angle)))
    (Vec3_mult k (Vec3_dot k v * (1 - Real.cos angle)))

/-- Modelled from the spec: yaw, a rotation of forward about the `up` axis. -/
def Camera_turnRight (c : Camera) (angle : ℝ) : Camera :=
  { c with forward := rotateAround c.forward (Vec3_normalize c.up) angle }

/-- Modelled from the spec: pitch, a rotation of forward about the right
axis; the spec's epsilon clamp guards a degenerate tilt whose threshold it
leaves unspecified, and no claim depends on it, so the rotation alone is
modelled. -/
def Camera_tiltDown (c : Camera) (angle : ℝ) : Camera :=
  { c with forward := rotateAround c.forward (Camera_directionRight c) angle }

/-- Modelled from the spec: perspective projection of the missing `camera.c`.
Returns the invalid marker when the point lies behind the camera (component
along forward not positive); otherwise applies the perspective divide with
the focal lengths derived from the field-of-view angles. -/
def Camera_project (c : Camera) (p : Vec3) : Pt2 :=
  let rel := Vec3_sub p c.pos
  let depth := Vec3_dot rel c.forward
  if depth ≤ 0 then Pt2_invalid
  else
    let fx := (c.viewportWidth : ℝ) / (2 * Real.tan (c.fovHorizontal / 2))
    let fy := (c.viewportHeight : ℝ) / (2 * Real.tan (c.fovVertical / 2))
    ⟨.val ((c.viewportWidth : ℝ) / 2 + Vec3_dot rel (Camera_directionRight c) / depth * fx),
     .val ((c.viewportHeight : ℝ) / 2 + Vec3_dot rel c.up / depth * fy)⟩

/-- An edge: an ordered pair of vertex indices. -/
structure Edge where
  a : ℕ
  b : ℕ

/-- The scene: vertex buffer, edge list, the parallel projected-point buffer
and the owned camera. -/
structure Scene where
  vertices : List Vec3
  edges : List Edge
  projectedPoints : List Pt2
  cam : Camera

/-- Modelled from the spec: `Scene_erase` of the missing `scene.c` clears the
vertex, edge and projected-point buffers and installs the default camera the
spec describes (origin, moderate field of view, window-sized viewport; the
parameters coincide with those the `init` code then passes explicitly). -/
def Scene_erase (s : Scene) : Scene :=
  { s with
    vertices := []
    edges := []
    projectedPoints := []
    cam := Camera_new (Vec3_new 0 0 0) (Vec3_new 0 1 0) 512 512 (3.14 / 3) (3.14 / 3) }

/-- Modelled from the spec: replaces the active camera wholesale. -/
def Scene_setCamera (s : Scene) (c : Camera) : Scene := { s with cam := c }

/-- Modelled from the spec: `Scene_free` of the missing `scene.c` releases
the vertex, edge and projected-point buffers. -/
def Scene_free (s : Scene) : Scene :=
  { s with vertices := [], edges := [], projectedPoints := [] }

/-- Modelled from the spec: `Scene_loadObj` of the missing `scene.c`.  The
external loader's outcome is the parameter: on success the vertex and edge
buffers are replaced wholesale and the projected-point buffer is reallocated
parallel to the new vertices; on failure the scene is left in its previous
state. -/
def Scene_loadObj (s : Scene) (res : Option (List Vec3 × List Edge)) : Scene :=
  match res with
  | none => s
  | some (vs, es) =>
    { s with
      vertices := vs
      edges := es
      projectedPoints := List.replicate vs.length Pt2_invalid }

/-- Modelled from the spec: `Scene_projectPoints` of the missing `scene.c`
recomputes, for every vertex, the projection through the current camera,
storing the result at the same index of the projected-point buffer. -/
def Scene_projectPoints (s : Scene) : Scene :=
  { s with projectedPoints := s.vertices.map (Camera_project s.cam) }

/-- Modelled from the spec: `Scene_radius` of the missing `scene.c`, the
maximum Euclidean distance from the coordinate-wise centroid to any vertex,
with the documented positive default `1.0` on an empty vertex set. -/
def Scene_radius (s : Scene) : ℝ :=
  match s.vertices with
  | [] => 1
  | vs =>
    let c := Vec3_mult (vs.foldr Vec3_add (Vec3_new 0 0 0)) (1 / vs.length)
    (vs.map (fun v => Vec3_length (Vec3_sub v c))).foldr max 0

/-- The `SoftwareRenderer` application state of `main.c`: the scene, the
camera velocity, the movement force factor, the six movement flags, the
cached scene radius and the two tick counters. -/
structure SoftwareRenderer where
  scene : Scene
  vel : Vec3
  moveForce : ℝ
  movingForward : Bool
  movingBackward : Bool
  movingLeft : Bool
  movingRight : Bool
  movingUp : Bool
  movingDown : Bool
  sceneRadius : ℝ
  lastInput : ℕ
  currentTick : ℕ

/-- Unsigned 32-bit subtraction, the arithmetic the C code performs on the
`Uint32` tick counters: `(a - b) mod 2^32`. -/
def u32sub (a b : ℕ) : ℕ := (a % 2 ^ 32 + 2 ^ 32 - b % 2 ^ 32) % 2 ^ 32

/-- `calculateSceneRadius` of `main.c`: caches the scene radius in the
application state. -/
def calculateSceneRadius (app : SoftwareRenderer) : SoftwareRenderer :=
  { app with sceneRadius := Scene_radius app.scene }

/-- `calculateCameraPosAndSpeed` of `main.c`: places the camera on the
cylindrical orbit of radius `r` and height `r / 1.2` at angle `tick / 2000`,
and points its look direction at the rescale of that position to length `-1`.
The current tick, read from the host clock in the C code, is the parameter. -/
def calculateCameraPosAndSpeed (tick : ℕ) (app : SoftwareRenderer) : SoftwareRenderer :=
  let r := app.sceneRadius
  let angle := (tick : ℝ) / 2000
  let newPos := Vec3_cylindrical r angle (r / 1.2)
  let newDirection := Vec3_setLength newPos (-1)
  let cam1 := Camera_setLookDirection app.scene.cam newDirection
  { app with scene := { app.scene with cam := { cam1 with pos := newPos } } }

/-- The flag-combined horizontal movement force of `update` in `main.c`,
before its rescale: forward and backward contributions along the camera's
horizontal forward direction, right and left contributions along the
camera's right direction. -/
def horizontalForceRaw (app : SoftwareRenderer) (cam : Camera) : Vec3 :=
  let fwd := Camera_directionForwardHorizontal cam
  let f1 := if app.movingForward then Vec3_add (Vec3_new 0 0 0) fwd else Vec3_new 0 0 0
  let f2 := if app.movingBackward then Vec3_sub f1 fwd else f1
  let rt := Camera_directionRight cam
  let f3 := if app.movingRight then Vec3_add f2 rt else f2
  if app.movingLeft then Vec3_sub f3 rt else f3

/-- The horizontal movement force after the guarded rescale of `update` in
`main.c`: rescaled to length one only when its squared length is nonzero. -/
def horizontalForce (app : SoftwareRenderer) (cam : Camera) : Vec3 :=
  let f := horizontalForceRaw app cam
  if Vec3_sqLength f ≠ 0 then Vec3_setLength f 1 else f

/-- The full movement force direction of `update` in `main.c`: the rescaled
horizontal force with the up and down contributions along the camera's up
vector added afterwards. -/
def totalForceDir (app : SoftwareRenderer) (cam : Camera) : Vec3 :=
  let f := horizontalForce app cam
  let f5 := if app.movingUp then Vec3_add f cam.up else f
  if app.movingDown then Vec3_sub f5 cam.up else f5

/-- The force `update` in `main.c` adds to the velocity: the force direction
scaled by `sceneRadius * dt * moveForce * 0.01`. -/
def appliedForce (app : SoftwareRenderer) (cam : Camera) (dt : ℝ) : Vec3 :=
  Vec3_mult (totalForceDir app cam) (app.sceneRadius * dt * app.moveForce * 0.01)

/-- The movement stage of `update` in `main.c`: records the tick, applies the
movement force to the velocity, damps the velocity, and displaces the camera
position by the damped velocity times `dt / 1000`. -/
def updateMove (dt : ℝ) (tick : ℕ) (app : SoftwareRenderer) : SoftwareRenderer :=
  let app1 := { app with currentTick := tick }
  let cam := app1.scene.cam
  let vel1 := Vec3_add app1.vel (appliedForce app1 cam dt)
  let vel2 := Vec3_mult vel1 (Real.rpow 0.00001 (dt / 1000))
  let displacement := Vec3_mult vel2 (dt / 1000)
  { app1 with
    vel := vel2
    scene := { app1.scene with cam := { cam with pos := Vec3_add cam.pos displacement } } }

/-- The trailing stage of `update` in `main.c`: the per-frame reprojection
of every vertex through the current camera. -/
def projectStage (app : SoftwareRenderer) : SoftwareRenderer :=
  { app with scene := Scene_projectPoints app.scene }

/-- `update` of `main.c`: the movement stage, then the idle-orbit camera
repositioning when more than 10000 ticks have passed since the last input
(unsigned 32-bit tick arithmetic), then the per-frame reprojection of every
vertex. -/
def update (dt : ℝ) (tick : ℕ) (app : SoftwareRenderer) : SoftwareRenderer :=
  projectStage
    (if u32sub (updateMove dt tick app).currentTick (updateMove dt tick app).lastInput > 10000
     then calculateCameraPosAndSpeed tick (updateMove dt tick app)
     else updateMove dt tick app)

/-- The per-edge draw condition of `draw` in `main.c`, in source order:
`a.x != NAN && b.x != NAN && a.y != NAN && b.y != NAN`, each comparison the
IEEE `!=`. -/
def drawCondition (pa pb : Pt2) : Prop :=
  ieeeNe pa.x FloatV.nan ∧ ieeeNe pb.x FloatV.nan ∧
  ieeeNe pa.y FloatV.nan ∧ ieeeNe pb.y FloatV.nan

/-- `draw` of `main.c`, per edge: the draw loop emits a line segment for an
edge of the edge list exactly when the draw condition holds of the two
projected endpoints it indexes.  It reads only the projected-point buffer
and the edge list. -/
def drawEmits (pts : List Pt2) (edges : List Edge) (e : Edge) : Prop :=
  e ∈ edges ∧ drawCondition (pts.getD e.a Pt2_invalid) (pts.getD e.b Pt2_invalid)

/-- The draw routine read off a scene: `draw` dereferences the scene's
projected points and edges and nothing else. -/
def Scene_drawEmits (s : Scene) (e : Edge) : Prop :=
  drawEmits s.projectedPoints s.edges e

/-- `onMouseButtonDown` of `main.c`: records the current tick as the last
input time (the pointer-lock side effect lives in the excluded windowing
collaborator). -/
def onMouseButtonDown (app : SoftwareRenderer) : SoftwareRenderer :=
  { app with lastInput := app.currentTick }

/-- `onMouseMove` of `main.c`: records the current tick as the last input
time, then yaws by `dx / 1000` and pitches by `dy / 1000`. -/
def onMouseMove (dx dy : ℤ) (app : SoftwareRenderer) : SoftwareRenderer :=
  let app1 := { app with lastInput := app.currentTick }
  { app1 with
    scene := { app1.scene with
      cam := Camera_tiltDown (Camera_turnRight app1.scene.cam ((dx : ℝ) / 1000))
               ((dy : ℝ) / 1000) } }

/-- The key codes the handlers of `main.c` distinguish. -/
inductive KeyCode where
  | w | s | a | d | space | lshift | escape | other

/-- `onKeyDown` of `main.c`: records the current tick as the last input time
and raises the movement flag of the pressed key (escape's pointer-unlock side
effect lives in the excluded windowing collaborator). -/
def onKeyDown (code : KeyCode) (app : SoftwareRenderer) : SoftwareRenderer :=
  let app1 := { app with lastInput := app.currentTick }
  match code with
  | .w => { app1 with movingForward := true }
  | .s => { app1 with movingBackward := true }
  | .a => { app1 with movingLeft := true }
  | .d => { app1 with movingRight := true }
  | .space => { app1 with movingUp := true }
  | .lshift => { app1 with movingDown := true }
  | .escape => app1
  | .other => app1

/-- `onKeyUp` of `main.c`: records the current tick as the last input time
and lowers the movement flag of the released key. -/
def onKeyUp (code : KeyCode) (app : SoftwareRenderer) : SoftwareRenderer :=
  let app1 := { app with lastInput := app.currentTick }
  match code with
  | .w => { app1 with movingForward := false }
  | .s => { app1 with movingBackward := false }
  | .a => { app1 with movingLeft := false }
  | .d => { app1 with movingRight := false }
  | .space => { app1 with movingUp := false }
  | .lshift => { app1 with movingDown := false }
  | .escape => app1
  | .other => app1

/-- `onFileDrop` of `main.c`: frees the scene, loads the dropped model into
it (the external loader's outcome is the parameter), then recomputes the
cached scene radius and the orbit camera placement.  Note the free happens
before the load. -/
def onFileDrop (tick : ℕ) (res : Option (List Vec3 × List Edge))
    (app : SoftwareRenderer) : SoftwareRenderer :=
  let app1 := { app with scene := Scene_free app.scene }
  let app2 := { app1 with scene := Scene_loadObj app1.scene res }
  calculateCameraPosAndSpeed tick (calculateSceneRadius app2)

/-- The window width `main` of `main.c` passes to `CCanvas_create`. -/
def windowWidth : ℤ := 512

/-- The window height `main` of `main.c` passes to `CCanvas_create`. -/
def windowHeight : ℤ := 512

/-- The default camera `init` of `main.c` installs: origin position, up
vector `(0, 1, 0)`, the window's pixel dimensions as viewport and `3.14 / 3`
for both field-of-view angles. -/
def initCamera : Camera :=
  Camera_new (Vec3_new 0 0 0) (Vec3_new 0 1 0) windowWidth windowHeight
    (3.14 / 3) (3.14 / 3)

/-- `init` of `main.c`: sets the tick counters, zeroes the velocity and the
movement flags, erases the scene and installs the default camera, loads the
base scene (the external loader's outcome is the parameter), then computes
the cached radius and the orbit camera placement. -/
def init (tick : ℕ) (baseRes : Option (List Vec3 × List Edge))
    (app0 : SoftwareRenderer) : SoftwareRenderer :=
  let app1 := { app0 with
    currentTick := tick
    lastInput := tick
    vel := Vec3_new 0 0 0
    moveForce := 1
    movingForward := false
    movingBackward := false
    movingLeft := false
    movingRight := false
    movingUp := false
    movingDown := false }
  let app2 := { app1 with scene := Scene_setCamera (Scene_erase app1.scene) initCamera }
  let app3 := { app2 with scene := Scene_loadObj app2.scene baseRes }
  calculateCameraPosAndSpeed tick (calculateSceneRadius app3)

/-- Well-formedness of an edge list over a vertex buffer: every index of
every edge is a valid vertex index. -/
def EdgesOk (vs : List Vec3) (es : List Edge) : Prop :=
  ∀ e ∈ es, e.a < vs.length ∧ e.b < vs.length

/-- The loader contract from the spec: whenever the external model loader
succeeds, every edge it returns indexes into the vertex list it returns. -/
def LoadOk (res : Option (List Vec3 × List Edge)) : Prop :=
  ∀ p, res = some p → EdgesOk p.1 p.2

/-- The scene invariant: the projected-point buffer is parallel to the
vertex buffer, and every edge indexes into the vertex buffer. -/
def SceneWF (s : Scene) : Prop :=
  s.projectedPoints.length = s.vertices.length ∧ EdgesOk s.vertices s.edges

/-- The application states reachable from startup: `init` with a loader
outcome honouring the loader contract, followed by any sequence of frame
updates and input-handler invocations. -/
inductive Reachable : SoftwareRenderer → Prop where
  | boot (tick : ℕ) (res : Option (List Vec3 × List Edge)) (app0 : SoftwareRenderer)
      (hres : LoadOk res) : Reachable (init tick res app0)
  | frame (dt : ℝ) (tick : ℕ) (app : SoftwareRenderer) :
      Reachable app → Reachable (update dt tick app)
  | mouseDown (app : SoftwareRenderer) :
      Reachable app → Reachable (onMouseButtonDown app)
  | mouseMove (dx dy : ℤ) (app : SoftwareRenderer) :
      Reachable app → Reachable (onMouseMove dx dy app)
  | keyDown (code : KeyCode) (app : SoftwareRenderer) :
      Reachable app → Reachable (onKeyDown code app)
  | keyUp (code : KeyCode) (app : SoftwareRenderer) :
      Reachable app → Reachable (onKeyUp code app)
  | fileDrop (tick : ℕ) (res : Option (List Vec3 × List Edge)) (app : SoftwareRenderer)
      (hres : LoadOk res) : Reachable app → Reachable (onFileDrop tick res app)

/-- A concrete quiescent application state, used to instantiate theorems. -/
def sampleApp : SoftwareRenderer :=
  { scene := { vertices := [], edges := [], projectedPoints := [], cam := initCamera }
    vel := Vec3_new 0 0 0
    moveForce := 1
    movingForward := false
    movingBackward := false
    movingLeft := false
    movingRight := false
    movingUp := false
    movingDown := false
    sceneRadius := 1
    lastInput := 0
    currentTick := 0 }

/-- A concrete application state holding a loaded one-vertex scene. -/
def loadedApp : SoftwareRenderer :=
  { sampleApp with
    scene := { vertices := [Vec3_new 1 2 3], edges := [], projectedPoints := [Pt2_invalid],
               cam := initCamera } }

/-- A concrete two-vertex scene whose first vertex lies behind the default
camera, after one reprojection pass. -/
def behindScene : Scene :=
  Scene_projectPoints
    { vertices := [Vec3_new 0 0 (-1), Vec3_new 1 0 1]
      edges := [⟨0, 1⟩]
      projectedPoints := []
      cam := initCamera }

/-- A concrete application state with only the forward movement flag raised. -/
def forwardApp : SoftwareRenderer := { sampleApp with movingForward := true }

/-- The IEEE `!=` holds whenever its right operand is NaN, whatever the left
operand: comparisons with NaN are unordered and `!=` holds on unordered
operands. -/
theorem ieeeNe_nan (a : FloatV) : ieeeNe a FloatV.nan := by
  cases a <;> exact trivial

/-- On unwrapped tick values, the unsigned 32-bit tick subtraction is plain
subtraction. -/
theorem u32sub_eq (a b : ℕ) (hb : b ≤ a) (ha : a < 2 ^ 32) : u32sub a b = a - b := by
  unfold u32sub
  rw [Nat.mod_eq_of_lt ha, Nat.mod_eq_of_lt (lt_of_le_of_lt hb ha)]
  rw [show a + 2 ^ 32 - b = a - b + 2 ^ 32 by omega]
  rw [Nat.add_mod_right, Nat.mod_eq_of_lt (by omega)]

/-- The squared length is a sum of squares, hence nonnegative. -/
theorem Vec3_sqLength_nonneg (v : Vec3) : 0 ≤ Vec3_sqLength v := by
  unfold Vec3_sqLength
  nlinarith [sq_nonneg v.x, sq_nonneg v.y, sq_nonneg v.z]

/-- Scaling multiplies the squared length by the square of the scalar. -/
theorem Vec3_sqLength_mult (v : Vec3) (s : ℝ) :
    Vec3_sqLength (Vec3_mult v s) = s ^ 2 * Vec3_sqLength v := by
  simp only [Vec3_sqLength, Vec3_mult]
  ring

/-- Scaling multiplies the length by the absolute value of the scalar. -/
theorem Vec3_length_mult (v : Vec3) (s : ℝ) :
    Vec3_length (Vec3_mult v s) = |s| * Vec3_length v := by
  unfold Vec3_length
  rw [Vec3_sqLength_mult, Real.sqrt_mul (sq_nonneg s), Real.sqrt_sq_eq_abs]

/-- A vector of nonzero squared length has positive length. -/
theorem Vec3_length_pos (v : Vec3) (h : Vec3_sqLength v ≠ 0) : 0 < Vec3_length v := by
  unfold Vec3_length
  exact Real.sqrt_pos.mpr (lt_of_le_of_ne (Vec3_sqLength_nonneg v) (Ne.symm h))

/-- C1 (refuted on the code as written): the claim says a failed model load
leaves the scene's vertex and edge buffers identical to their pre-call
state, but `onFileDrop` frees the scene before invoking the load, so from a
one-vertex scene a failed drop leaves an empty vertex buffer, not the
previous one. -/
theorem c1_failed_load_discards_previous_scene :
    loadedApp.scene.vertices = [Vec3_new 1 2 3]
    ∧ (onFileDrop 0 none loadedApp).scene.vertices = []
    ∧ (onFileDrop 0 none loadedApp).scene.vertices ≠ loadedApp.scene.vertices := by
  refine ⟨rfl, rfl, fun h => ?_⟩
  rw [show (onFileDrop 0 none loadedApp).scene.vertices = [] from rfl,
      show loadedApp.scene.vertices = [Vec3_new 1 2 3] from rfl] at h
  exact List.cons_ne_nil _ _ h.symm

/-- C2 (refuted on the code as written): the claim says the draw routine
skips an edge whose endpoint carries the invalid marker, but the guard
compares each coordinate against NaN with the IEEE `!=`, which holds for
every operand; in `behindScene` the first endpoint projects to the invalid
marker and the draw loop still emits the edge. -/
theorem c2_draw_emits_edge_with_invalid_marker :
    behindScene.projectedPoints.getD 0 Pt2_invalid = Pt2_invalid
    ∧ Scene_drawEmits behindScene ⟨0, 1⟩ := by
  constructor
  · show Camera_project initCamera (Vec3_new 0 0 (-1)) = Pt2_invalid
    simp only [Camera_project, initCamera, Camera_new, Vec3_sub, Vec3_dot, Vec3_new]
    norm_num
  · exact ⟨List.Mem.head _, ieeeNe_nan _, ieeeNe_nan _, ieeeNe_nan _, ieeeNe_nan _⟩

/-- C6: within a frame, the update stage (movement integration and possible
idle-orbit) completes before the projection of all vertices: the
projected-point buffer `update` leaves behind is exactly the projection of
the frame's final vertices through the frame's final camera, and the draw
read of a scene is, definitionally, a function of the projected points and
edges alone. -/
theorem c6_update_projects_with_same_frame_camera (dt : ℝ) (tick : ℕ)
    (app : SoftwareRenderer) (e : Edge) :
    (update dt tick app).scene.projectedPoints =
      ((update dt tick app).scene.vertices).map (Camera_project (update dt tick app).scene.cam)
    ∧ (Scene_drawEmits (update dt tick app).scene e ↔
        drawEmits (update dt tick app).scene.projectedPoints (update dt tick app).scene.edges e) :=
  ⟨rfl, Iff.rfl⟩

/-- C7: at initialization, the erase-and-install step of `init` leaves the
scene empty with the default camera at the origin, up vector `(0, 1, 0)`,
both field-of-view angles `3.14 / 3`, and the window's 512 by 512 pixel
dimensions as viewport. -/
theorem c7_init_default_camera (s : Scene) :
    (Scene_setCamera (Scene_erase s) initCamera).cam.pos = Vec3_new 0 0 0
    ∧ (Scene_setCamera (Scene_erase s) initCamera).cam.up = Vec3_new 0 1 0
    ∧ (Scene_setCamera (Scene_erase s) initCamera).cam.fovHorizontal = 3.14 / 3
    ∧ (Scene_setCamera (Scene_erase s) initCamera).cam.fovVertical = 3.14 / 3
    ∧ (Scene_setCamera (Scene_erase s) initCamera).cam.viewportWidth = windowWidth
    ∧ (Scene_setCamera (Scene_erase s) initCamera).cam.viewportHeight = windowHeight
    ∧ windowWidth = 512 ∧ windowHeight = 512
    ∧ (Scene_setCamera (Scene_erase s) initCamera).vertices = []
    ∧ (Scene_setCamera (Scene_erase s) initCamera).edges = [] :=
  ⟨rfl, rfl, rfl, rfl, rfl, rfl, rfl, rfl, rfl, rfl⟩

/-- C3: on unwrapped ticks, the idle-orbit repositioning runs in an update
step exactly when more than 10000 ticks have elapsed since the last recorded
input; every input handler records the current tick as the last input time;
and within 10000 ticks of the last input the update step is the plain
movement-and-reprojection step, with no orbit repositioning of the camera. -/
theorem c3_idle_orbit_threshold (dt : ℝ) (tick : ℕ) (app : SoftwareRenderer)
    (dx dy : ℤ) (kc kc' : KeyCode)
    (h1 : app.lastInput ≤ tick) (h2 : tick < 2 ^ 32) :
    ((u32sub tick app.lastInput > 10000) ↔ 10000 < tick - app.lastInput)
    ∧ (10000 < tick - app.lastInput →
        update dt tick app =
          projectStage (calculateCameraPosAndSpeed tick (updateMove dt tick app)))
    ∧ (tick - app.lastInput ≤ 10000 →
        update dt tick app = projectStage (updateMove dt tick app))
    ∧ (onMouseButtonDown app).lastInput = app.currentTick
    ∧ (onMouseMove dx dy app).lastInput = app.currentTick
    ∧ (onKeyDown kc app).lastInput = app.currentTick
    ∧ (onKeyUp kc' app).lastInput = app.currentTick := by
  have hu : u32sub tick app.lastInput = tick - app.lastInput := u32sub_eq _ _ h1 h2
  refine ⟨by rw [hu], ?_, ?_, rfl, rfl, ?_, ?_⟩
  · intro h
    have hc : u32sub (updateMove dt tick app).currentTick
        (updateMove dt tick app).lastInput > 10000 := by
      show u32sub tick app.lastInput > 10000
      rw [hu]; exact h
    unfold update
    rw [if_pos hc]
  · intro h
    have hc : ¬ u32sub (updateMove dt tick app).currentTick
        (updateMove dt tick app).lastInput > 10000 := by
      show ¬ u32sub tick app.lastInput > 10000
      rw [hu]; omega
    unfold update
    rw [if_neg hc]
  · cases kc <;> rfl
  · cases kc' <;> rfl

/-- C3 witness: the theorem applied at the quiescent sample state with tick
zero. -/
theorem c3_idle_orbit_threshold_witness :
    sampleApp.lastInput ≤ 0 ∧ (0 : ℕ) < 2 ^ 32 ∧
    (((u32sub 0 sampleApp.lastInput > 10000) ↔ 10000 < 0 - sampleApp.lastInput)
    ∧ (10000 < 0 - sampleApp.lastInput →
        update 1 0 sampleApp =
          projectStage (calculateCameraPosAndSpeed 0 (updateMove 1 0 sampleApp)))
    ∧ (0 - sampleApp.lastInput ≤ 10000 →
        update 1 0 sampleApp = projectStage (updateMove 1 0 sampleApp))
    ∧ (onMouseButtonDown sampleApp).lastInput = sampleApp.currentTick
    ∧ (onMouseMove 2 3 sampleApp).lastInput = sampleApp.currentTick
    ∧ (onKeyDown KeyCode.w sampleApp).lastInput = sampleApp.currentTick
    ∧ (onKeyUp KeyCode.s sampleApp).lastInput = sampleApp.currentTick) :=
  ⟨Nat.le.refl, Nat.two_pow_pos 32,
    c3_idle_orbit_threshold 1 0 sampleApp 2 3 KeyCode.w KeyCode.s Nat.le.refl
      (Nat.two_pow_pos 32)⟩

/-- C9: in an update step in which the idle-orbit does not engage, only the
camera position and the stored velocity change: the camera's up vector, look
direction, field-of-view angles and viewport, and the scene's vertex and
edge buffers, are those of the pre-step state; the new stored velocity is
the damped sum of the old velocity and the applied force, and the camera
position moves by exactly that velocity times `dt / 1000`. -/
theorem c9_movement_touches_only_pos_and_vel (dt : ℝ) (tick : ℕ)
    (app : SoftwareRenderer) (h : ¬ u32sub tick app.lastInput > 10000) :
    (update dt tick app).scene.cam.up = app.scene.cam.up
    ∧ (update dt tick app).scene.cam.fovHorizontal = app.scene.cam.fovHorizontal
    ∧ (update dt tick app).scene.cam.fovVertical = app.scene.cam.fovVertical
    ∧ (update dt tick app).scene.cam.viewportWidth = app.scene.cam.viewportWidth
    ∧ (update dt tick app).scene.cam.viewportHeight = app.scene.cam.viewportHeight
    ∧ (update dt tick app).scene.cam.forward = app.scene.cam.forward
    ∧ (update dt tick app).scene.vertices = app.scene.vertices
    ∧ (update dt tick app).scene.edges = app.scene.edges
    ∧ (update dt tick app).vel =
        Vec3_mult (Vec3_add app.vel (appliedForce app app.scene.cam dt))
          (Real.rpow 0.00001 (dt / 1000))
    ∧ (update dt tick app).scene.cam.pos =
        Vec3_add app.scene.cam.pos
          (Vec3_mult
            (Vec3_mult (Vec3_add app.vel (appliedForce app app.scene.cam dt))
              (Real.rpow 0.00001 (dt / 1000)))
            (dt / 1000)) := by
  have hc : ¬ u32sub (updateMove dt tick app).currentTick
      (updateMove dt tick app).lastInput > 10000 := h
  unfold update
  rw [if_neg hc]
  exact ⟨rfl, rfl, rfl, rfl, rfl, rfl, rfl, rfl, rfl, rfl⟩

/-- C9 witness: the theorem applied at the quiescent sample state with tick
zero, where no idle-orbit is due. -/
theorem c9_movement_touches_only_pos_and_vel_witness :
    (¬ u32sub 0 sampleApp.lastInput > 10000) ∧
    ((update 1 0 sampleApp).scene.cam.up = sampleApp.scene.cam.up
    ∧ (update 1 0 sampleApp).scene.cam.fovHorizontal = sampleApp.scene.cam.fovHorizontal
    ∧ (update 1 0 sampleApp).scene.cam.fovVertical = sampleApp.scene.cam.fovVertical
    ∧ (update 1 0 sampleApp).scene.cam.viewportWidth = sampleApp.scene.cam.viewportWidth
    ∧ (update 1 0 sampleApp).scene.cam.viewportHeight = sampleApp.scene.cam.viewportHeight
    ∧ (update 1 0 sampleApp).scene.cam.forward = sampleApp.scene.cam.forward
    ∧ (update 1 0 sampleApp).scene.vertices = sampleApp.scene.vertices
    ∧ (update 1 0 sampleApp).scene.edges = sampleApp.scene.edges
    ∧ (update 1 0 sampleApp).vel =
        Vec3_mult (Vec3_add sampleApp.vel (appliedForce sampleApp sampleApp.scene.cam 1))
          (Real.rpow 0.00001 (1 / 1000))
    ∧ (update 1 0 sampleApp).scene.cam.pos =
        Vec3_add sampleApp.scene.cam.pos
          (Vec3_mult
            (Vec3_mult (Vec3_add sampleApp.vel (appliedForce sampleApp sampleApp.scene.cam 1))
              (Real.rpow 0.00001 (1 / 1000)))
            (1 / 1000))) :=
  ⟨by simp [sampleApp, u32sub],
    c9_movement_touches_only_pos_and_vel 1 0 sampleApp (by simp [sampleApp, u32sub])⟩

/-- Scaling by one is the identity. -/
theorem Vec3_mult_one (v : Vec3) : Vec3_mult v 1 = v := by
  simp [Vec3_mult]

/-- C8: the force applied to the camera velocity and the idle-orbit camera
position are linear in the stored scene radius: scaling the radius by a
nonneg factor `k` scales the applied force's magnitude by `k` and scales the
orbit position (hence its cylindrical radius and height) by `k`. -/
theorem c8_radius_linear_scaling (app : SoftwareRenderer) (cam : Camera) (dt : ℝ)
    (tick : ℕ) (k : ℝ) (hk : 0 ≤ k) :
    Vec3_length (appliedForce { app with sceneRadius := k * app.sceneRadius } cam dt)
      = k * Vec3_length (appliedForce app cam dt)
    ∧ (calculateCameraPosAndSpeed tick
        { app with sceneRadius := k * app.sceneRadius }).scene.cam.pos
      = Vec3_mult ((calculateCameraPosAndSpeed tick app).scene.cam.pos) k := by
  constructor
  · have h1 : appliedForce { app with sceneRadius := k * app.sceneRadius } cam dt
        = Vec3_mult (totalForceDir app cam)
            (k * app.sceneRadius * dt * app.moveForce * 0.01) := rfl
    have h2 : appliedForce app cam dt
        = Vec3_mult (totalForceDir app cam)
            (app.sceneRadius * dt * app.moveForce * 0.01) := rfl
    rw [h1, h2, Vec3_length_mult, Vec3_length_mult,
      show k * app.sceneRadius * dt * app.moveForce * 0.01
          = k * (app.sceneRadius * dt * app.moveForce * 0.01) by ring,
      abs_mul, abs_of_nonneg hk, mul_assoc]
  · show Vec3_cylindrical (k * app.sceneRadius) ((tick : ℝ) / 2000)
        (k * app.sceneRadius / 1.2)
      = Vec3_mult (Vec3_cylindrical app.sceneRadius ((tick : ℝ) / 2000)
          (app.sceneRadius / 1.2)) k
    simp only [Vec3_cylindrical, Vec3_mult, Vec3.mk.injEq]
    refine ⟨by ring, by ring, by ring⟩

/-- C8 witness: the theorem applied at the sample state with factor two. -/
theorem c8_radius_linear_scaling_witness :
    (0 : ℝ) ≤ 2
    ∧ (Vec3_length (appliedForce { sampleApp with
          sceneRadius := 2 * sampleApp.sceneRadius } initCamera 1)
        = 2 * Vec3_length (appliedForce sampleApp initCamera 1)
    ∧ (calculateCameraPosAndSpeed 0 { sampleApp with
          sceneRadius := 2 * sampleApp.sceneRadius }).scene.cam.pos
        = Vec3_mult ((calculateCameraPosAndSpeed 0 sampleApp).scene.cam.pos) 2) :=
  ⟨zero_le_two, c8_radius_linear_scaling sampleApp initCamera 1 0 2 zero_le_two⟩

/-- C10: the combined horizontal movement force is rescaled only under the
guard that its squared length is nonzero; under that guard its length is
nonzero (so the rescale never divides by zero), the rescale is exactly the
division by the length, and the resulting horizontal force has length one;
when the squared length is zero, the force is passed through unrescaled. -/
theorem c10_horizontal_force_normalization (app : SoftwareRenderer) (cam : Camera)
    (h : Vec3_sqLength (horizontalForceRaw app cam) ≠ 0) :
    Vec3_length (horizontalForceRaw app cam) ≠ 0
    ∧ horizontalForce app cam =
        Vec3_mult (horizontalForceRaw app cam)
          (1 / Vec3_length (horizontalForceRaw app cam))
    ∧ Vec3_length (horizontalForce app cam) = 1
    ∧ (∀ a c, Vec3_sqLength (horizontalForceRaw a c) = 0 →
        horizontalForce a c = horizontalForceRaw a c) := by
  have hpos : 0 < Vec3_length (horizontalForceRaw app cam) := Vec3_length_pos _ h
  have hne : Vec3_length (horizontalForceRaw app cam) ≠ 0 := ne_of_gt hpos
  have hF : horizontalForce app cam =
      Vec3_mult (horizontalForceRaw app cam)
        (1 / Vec3_length (horizontalForceRaw app cam)) := by
    simp only [horizontalForce, Vec3_setLength]
    rw [if_pos h, if_neg hne]
  refine ⟨hne, hF, ?_, ?_⟩
  · rw [hF, Vec3_length_mult, abs_of_pos (one_div_pos.mpr hpos),
      one_div_mul_cancel hne]
  · intro a c h0
    simp only [horizontalForce]
    rw [if_neg (not_not_intro h0)]

/-- C10 witness: the theorem applied at the sample state with only the
forward flag raised before the default camera, where the raw horizontal
force is the unit forward axis. -/
theorem c10_horizontal_force_normalization_witness :
    Vec3_sqLength (horizontalForceRaw forwardApp initCamera) ≠ 0
    ∧ (Vec3_length (horizontalForceRaw forwardApp initCamera) ≠ 0
    ∧ horizontalForce forwardApp initCamera =
        Vec3_mult (horizontalForceRaw forwardApp initCamera)
          (1 / Vec3_length (horizontalForceRaw forwardApp initCamera))
    ∧ Vec3_length (horizontalForce forwardApp initCamera) = 1
    ∧ (∀ a c, Vec3_sqLength (horizontalForceRaw a c) = 0 →
        horizontalForce a c = horizontalForceRaw a c)) := by
  have h : Vec3_sqLength (horizontalForceRaw forwardApp initCamera) ≠ 0 := by
    simp [forwardApp, sampleApp, initCamera, Camera_new, horizontalForceRaw,
      Camera_directionForwardHorizontal, Camera_directionRight, Vec3_normalize,
      Vec3_setLength, Vec3_length, Vec3_sqLength, Vec3_dot, Vec3_cross, Vec3_mult,
      Vec3_sub, Vec3_add, Vec3_new, windowWidth, windowHeight]
  exact ⟨h, c10_horizontal_force_normalization forwardApp initCamera h⟩

/-- C4: whenever the idle-orbit repositioning runs with a positive stored
radius `r`, the camera position becomes the cylindrical point of radius `r`,
angle `tick / 2000` and height `r / 1.2`, and the look direction becomes
that position vector rescaled to length `-1`: a unit vector, equal to the
normalized direction from the new camera position toward the origin. -/
theorem c4_orbit_camera_placement (tick : ℕ) (app : SoftwareRenderer)
    (hr : 0 < app.sceneRadius) :
    (calculateCameraPosAndSpeed tick app).scene.cam.pos
      = Vec3_cylindrical app.sceneRadius ((tick : ℝ) / 2000) (app.sceneRadius / 1.2)
    ∧ (calculateCameraPosAndSpeed tick app).scene.cam.forward
      = Vec3_mult
          (Vec3_cylindrical app.sceneRadius ((tick : ℝ) / 2000) (app.sceneRadius / 1.2))
          (-1 / Vec3_length
            (Vec3_cylindrical app.sceneRadius ((tick : ℝ) / 2000) (app.sceneRadius / 1.2)))
    ∧ Vec3_length ((calculateCameraPosAndSpeed tick app).scene.cam.forward) = 1
    ∧ (calculateCameraPosAndSpeed tick app).scene.cam.forward
      = Vec3_mult
          (Vec3_sub (Vec3_new 0 0 0) ((calculateCameraPosAndSpeed tick app).scene.cam.pos))
          (1 / Vec3_length
            (Vec3_sub (Vec3_new 0 0 0) ((calculateCameraPosAndSpeed tick app).scene.cam.pos))) := by
  have hsq : Vec3_sqLength
      (Vec3_cylindrical app.sceneRadius ((tick : ℝ) / 2000) (app.sceneRadius / 1.2))
      = app.sceneRadius ^ 2 + (app.sceneRadius / 1.2) ^ 2 := by
    simp only [Vec3_sqLength, Vec3_cylindrical]
    linear_combination app.sceneRadius ^ 2 * Real.sin_sq_add_cos_sq ((tick : ℝ) / 2000)
  have hsqpos : 0 < Vec3_sqLength
      (Vec3_cylindrical app.sceneRadius ((tick : ℝ) / 2000) (app.sceneRadius / 1.2)) := by
    rw [hsq]
    have h1 := pow_pos hr 2
    nlinarith [sq_nonneg (app.sceneRadius / 1.2)]
  have hlpos : 0 < Vec3_length
      (Vec3_cylindrical app.sceneRadius ((tick : ℝ) / 2000) (app.sceneRadius / 1.2)) :=
    Vec3_length_pos _ (ne_of_gt hsqpos)
  have hlne : Vec3_length
      (Vec3_cylindrical app.sceneRadius ((tick : ℝ) / 2000) (app.sceneRadius / 1.2)) ≠ 0 :=
    ne_of_gt hlpos
  have hdir : Vec3_setLength
      (Vec3_cylindrical app.sceneRadius ((tick : ℝ) / 2000) (app.sceneRadius / 1.2)) (-1)
      = Vec3_mult
          (Vec3_cylindrical app.sceneRadius ((tick : ℝ) / 2000) (app.sceneRadius / 1.2))
          (-1 / Vec3_length
            (Vec3_cylindrical app.sceneRadius ((tick : ℝ) / 2000) (app.sceneRadius / 1.2))) := by
    unfold Vec3_setLength
    rw [if_neg hlne]
  have hdirlen : Vec3_length (Vec3_mult
      (Vec3_cylindrical app.sceneRadius ((tick : ℝ) / 2000) (app.sceneRadius / 1.2))
      (-1 / Vec3_length
        (Vec3_cylindrical app.sceneRadius ((tick : ℝ) / 2000) (app.sceneRadius / 1.2)))) = 1 := by
    rw [Vec3_length_mult, abs_div, abs_neg, abs_one, abs_of_pos hlpos,
      one_div_mul_cancel hlne]
  have hfwd : (calculateCameraPosAndSpeed tick app).scene.cam.forward
      = Vec3_mult
          (Vec3_cylindrical app.sceneRadius ((tick : ℝ) / 2000) (app.sceneRadius / 1.2))
          (-1 / Vec3_length
            (Vec3_cylindrical app.sceneRadius ((tick : ℝ) / 2000) (app.sceneRadius / 1.2))) := by
    show Vec3_normalize (Vec3_setLength
        (Vec3_cylindrical app.sceneRadius ((tick : ℝ) / 2000) (app.sceneRadius / 1.2)) (-1)) = _
    rw [hdir]
    unfold Vec3_normalize Vec3_setLength
    have hQne : Vec3_length (Vec3_mult
        (Vec3_cylindrical app.sceneRadius ((tick : ℝ) / 2000) (app.sceneRadius / 1.2))
        (-1 / Vec3_length
          (Vec3_cylindrical app.sceneRadius ((tick : ℝ) / 2000) (app.sceneRadius / 1.2)))) ≠ 0 := by
      rw [hdirlen]
      exact one_ne_zero
    rw [if_neg hQne, hdirlen, one_div_one, Vec3_mult_one]
  have hneg : Vec3_sub (Vec3_new 0 0 0)
      (Vec3_cylindrical app.sceneRadius ((tick : ℝ) / 2000) (app.sceneRadius / 1.2))
      = Vec3_mult
          (Vec3_cylindrical app.sceneRadius ((tick : ℝ) / 2000) (app.sceneRadius / 1.2)) (-1) := by
    simp only [Vec3_sub, Vec3_new, Vec3_mult, Vec3_cylindrical, Vec3.mk.injEq]
    refine ⟨by ring, by ring, by ring⟩
  have hlneg : Vec3_length (Vec3_sub (Vec3_new 0 0 0)
      (Vec3_cylindrical app.sceneRadius ((tick : ℝ) / 2000) (app.sceneRadius / 1.2)))
      = Vec3_length
          (Vec3_cylindrical app.sceneRadius ((tick : ℝ) / 2000) (app.sceneRadius / 1.2)) := by
    rw [hneg, Vec3_length_mult, abs_neg, abs_one, one_mul]
  refine ⟨rfl, hfwd, by rw [hfwd]; exact hdirlen, ?_⟩
  have hpos : (calculateCameraPosAndSpeed tick app).scene.cam.pos
      = Vec3_cylindrical app.sceneRadius ((tick : ℝ) / 2000) (app.sceneRadius / 1.2) := rfl
  rw [hfwd, hpos, hlneg, hneg]
  simp only [Vec3_cylindrical, Vec3_mult, Vec3.mk.injEq]
  refine ⟨by ring, by ring, by ring⟩

/-- C4 witness: the theorem applied at the sample state, whose stored scene
radius is one, with tick zero. -/
theorem c4_orbit_camera_placement_witness :
    0 < sampleApp.sceneRadius
    ∧ ((calculateCameraPosAndSpeed 0 sampleApp).scene.cam.pos
      = Vec3_cylindrical sampleApp.sceneRadius ((0 : ℕ) / 2000 : ℝ)
          (sampleApp.sceneRadius / 1.2)
    ∧ (calculateCameraPosAndSpeed 0 sampleApp).scene.cam.forward
      = Vec3_mult
          (Vec3_cylindrical sampleApp.sceneRadius ((0 : ℕ) / 2000 : ℝ)
            (sampleApp.sceneRadius / 1.2))
          (-1 / Vec3_length
            (Vec3_cylindrical sampleApp.sceneRadius ((0 : ℕ) / 2000 : ℝ)
              (sampleApp.sceneRadius / 1.2)))
    ∧ Vec3_length ((calculateCameraPosAndSpeed 0 sampleApp).scene.cam.forward) = 1
    ∧ (calculateCameraPosAndSpeed 0 sampleApp).scene.cam.forward
      = Vec3_mult
          (Vec3_sub (Vec3_new 0 0 0) ((calculateCameraPosAndSpeed 0 sampleApp).scene.cam.pos))
          (1 / Vec3_length
            (Vec3_sub (Vec3_new 0 0 0)
              ((calculateCameraPosAndSpeed 0 sampleApp).scene.cam.pos)))) :=
  ⟨zero_lt_one, c4_orbit_camera_placement 0 sampleApp zero_lt_one⟩

/-- Reprojection preserves the scene invariant: the freshly recomputed
projected-point buffer is parallel to the vertex buffer by construction. -/
theorem sceneWF_projectPoints (s : Scene) (hs : SceneWF s) :
    SceneWF (Scene_projectPoints s) :=
  ⟨by simp [Scene_projectPoints], hs.2⟩

/-- A load honouring the loader contract preserves the scene invariant. -/
theorem sceneWF_loadObj (s : Scene) (res : Option (List Vec3 × List Edge))
    (hres : LoadOk res) (hs : SceneWF s) : SceneWF (Scene_loadObj s res) := by
  cases res with
  | none => exact hs
  | some p =>
    obtain ⟨vs, es⟩ := p
    exact ⟨by simp [Scene_loadObj], hres (vs, es) rfl⟩

/-- Every reachable application state satisfies the scene invariant. -/
theorem reachable_sceneWF (app : SoftwareRenderer) (h : Reachable app) :
    SceneWF app.scene := by
  induction h with
  | boot tick res app0 hres =>
    have h0 : SceneWF (Scene_setCamera (Scene_erase app0.scene) initCamera) :=
      ⟨rfl, fun e he => absurd he (List.not_mem_nil e)⟩
    exact sceneWF_loadObj _ _ hres h0
  | frame dt tick app hR ih =>
    have hX : ∀ b : SoftwareRenderer, SceneWF b.scene → SceneWF (projectStage b).scene :=
      fun b hb => sceneWF_projectPoints _ hb
    unfold update
    apply hX
    split
    · exact ih
    · exact ih
  | mouseDown app hR ih => exact ih
  | mouseMove dx dy app hR ih => exact ih
  | keyDown code app hR ih => cases code <;> exact ih
  | keyUp code app hR ih => cases code <;> exact ih
  | fileDrop tick res app hres hR ih =>
    have h0 : SceneWF (Scene_free app.scene) :=
      ⟨rfl, fun e he => absurd he (List.not_mem_nil e)⟩
    exact sceneWF_loadObj _ _ hres h0

/-- C5: in every reachable state the projected-point buffer has exactly the
length of the vertex buffer and every edge index addresses a valid projected
point, and each per-frame projection recomputes the whole buffer as a map
over the vertices rather than patching entries. -/
theorem c5_projected_parallel_invariant (app : SoftwareRenderer) (h : Reachable app) :
    app.scene.projectedPoints.length = app.scene.vertices.length
    ∧ (∀ e ∈ app.scene.edges,
        e.a < app.scene.projectedPoints.length ∧ e.b < app.scene.projectedPoints.length)
    ∧ (∀ s : Scene, (Scene_projectPoints s).projectedPoints
        = s.vertices.map (Camera_project s.cam)) := by
  obtain ⟨h1, h2⟩ := reachable_sceneWF app h
  refine ⟨h1, ?_, fun s => rfl⟩
  intro e he
  have h3 := h2 e he
  omega

/-- C5 witness: the theorem applied at the reachable state produced by
booting from the sample state with a failed base-scene load. -/
theorem c5_projected_parallel_invariant_witness :
    Reachable (init 0 none sampleApp)
    ∧ ((init 0 none sampleApp).scene.projectedPoints.length
        = (init 0 none sampleApp).scene.vertices.length
    ∧ (∀ e ∈ (init 0 none sampleApp).scene.edges,
        e.a < (init 0 none sampleApp).scene.projectedPoints.length
        ∧ e.b < (init 0 none sampleApp).scene.projectedPoints.length)
    ∧ (∀ s : Scene, (Scene_projectPoints s).projectedPoints
        = s.vertices.map (Camera_project s.cam))) :=
  ⟨Reachable.boot 0 none sampleApp (fun _ hp => nomatch hp),
    c5_projected_parallel_invariant _
      (Reachable.boot 0 none sampleApp (fun _ hp => nomatch hp))⟩
